import Mathlib

/-
  Shallow embedding of src/doc2rag/ai_search_async.py: the chunk indexing
  pipeline (ChunkGroupUploadTask, FileUploadTask, UploadToAISearchMainAgent).

  Remote services (the embedding endpoint and the search index) are modelled
  as environments: functions from the attempt number and the request to an
  outcome.  Database state is a record of file, split-file and chunk rows.
  The asynchronous gather of batches is modelled as a left fold; each batch
  only writes its own chunk rows, so any interleaving produces the same
  final state as the sequential fold.
-/

namespace AiSearchAsync

/-- Module-level constant RATE_LIMIT_RETRY_DELAY (seconds). -/
def RATE_LIMIT_RETRY_DELAY : Nat := 10

/-- Module-level constant BACKOFF_FACTOR. -/
def BACKOFF_FACTOR : Nat := 2

/-- Module-level constant MAX_RETRIES. -/
def MAX_RETRIES : Nat := 3

/-- Module-level constant DOCUMENT_TYPE. -/
def DOCUMENT_TYPE : String := "Chunk"

/-- A chunk row (table chunk in db_utils/models.py). -/
structure Chunk where
  id : Nat
  ai_search_id : String
  content : String
  status : String
  split_file_id : Nat
deriving DecidableEq, Repr

/-- A split-file row (table split_file). Only the columns the pipeline reads. -/
structure SplitFile where
  id : Nat
  file_id : Nat
deriving DecidableEq, Repr

/-- A file row (table file). Only the columns the pipeline reads or writes. -/
structure File where
  id : Nat
  index_name : String
  name : String
  status : String
deriving DecidableEq, Repr

/-- The relational store state visible to the pipeline. -/
structure DB where
  files : List File
  split_files : List SplitFile
  chunks : List Chunk
deriving DecidableEq, Repr

/-- Outcome of one call to the embedding service. -/
inductive EmbedOutcome where
  | ok (embeddings : List (List Int))
  | rateLimit
  | exc (msg : String)
deriving DecidableEq, Repr

/-- Outcome of one call to the search-index upload endpoint: either a list of
per-document succeeded flags (IndexingResult.succeeded) or an exception. -/
inductive UploadOutcome where
  | ok (succeeded : List Bool)
  | exc (msg : String)
deriving DecidableEq, Repr

/-- A raised Python exception: its message and, when raised from another
exception, the underlying cause. -/
structure Exc where
  msg : String
  cause : Option String
deriving DecidableEq, Repr

/-- One document of the upload payload, as built by _prepare_payload. -/
structure SearchDocument where
  action : String
  id : String
  document_type : String
  file_id : Nat
  file_name : String
  content : String
  content_vector : List Int
deriving DecidableEq, Repr

/-- The environment of one ChunkGroupUploadTask run: for each attempt number
and request, the outcome the remote service produces. -/
structure BatchEnv where
  embed : Nat → List String → EmbedOutcome
  upload : Nat → List SearchDocument → UploadOutcome

/-- Result of a retry loop: number of service calls made, the sleep durations
(seconds) in order, and the final value or raised exception. -/
structure CallResult (α : Type) where
  calls : Nat
  waits : List Nat
  result : Except Exc α
deriving Repr

/-- The task object of class ChunkGroupUploadTask: its chunks, owning file id
and name, and the embedding credential it was assigned. -/
structure EmbeddingConfig where
  endpoint : String
  deployment : String
  api_version : String
  api_key : String
deriving DecidableEq, Inhabited, Repr

structure ChunkGroupUploadTask where
  embed_config : EmbeddingConfig
  chunks : List Chunk
  file_id : Nat
  file_name : String
deriving DecidableEq, Repr

/-- The document list built on embedding success (the "value" entry of the
payload dict): one document per (chunk, embedding) pair, zipped in order. -/
def buildPayload (t : ChunkGroupUploadTask) (embeddings : List (List Int)) :
    List SearchDocument :=
  (t.chunks.zip embeddings).map (fun p =>
    { action := "upload"
      id := p.1.ai_search_id
      document_type := DOCUMENT_TYPE
      file_id := t.file_id
      file_name := t.file_name
      content := p.1.content
      content_vector := p.2 })

/-- Loop body of ChunkGroupUploadTask._prepare_payload.  The loop runs while
retries < MAX_RETRIES; remaining is MAX_RETRIES - retries.  A rate-limit
error sleeps RATE_LIMIT_RETRY_DELAY * BACKOFF_FACTOR ^ retries and retries;
any other exception is re-raised immediately; an embedding-count mismatch
raises a ValueError that the generic handler re-raises.  Falling out of the
loop raises a fresh exception with no cause attached. -/
def preparePayloadGo (t : ChunkGroupUploadTask) (env : BatchEnv)
    (remaining retries : Nat) : CallResult (List SearchDocument) :=
  match remaining with
  | 0 =>
    ⟨0, [], .error ⟨"Max retries reached for embedding API due to rate limits.", none⟩⟩
  | r + 1 =>
    match env.embed retries (t.chunks.map Chunk.content) with
    | .ok embeddings =>
      if t.chunks.length ≠ embeddings.length then
        ⟨1, [], .error ⟨"Mismatch between number of chunks and embeddings.", none⟩⟩
      else
        ⟨1, [], .ok (buildPayload t embeddings)⟩
    | .rateLimit =>
      let wait_time := RATE_LIMIT_RETRY_DELAY * BACKOFF_FACTOR ^ retries
      let rest := preparePayloadGo t env r (retries + 1)
      ⟨rest.calls + 1, wait_time :: rest.waits, rest.result⟩
    | .exc m => ⟨1, [], .error ⟨m, none⟩⟩

/-- ChunkGroupUploadTask._prepare_payload. -/
def preparePayload (t : ChunkGroupUploadTask) (env : BatchEnv) :
    CallResult (List SearchDocument) :=
  preparePayloadGo t env MAX_RETRIES 0

/-- Loop body of ChunkGroupUploadTask._upload_documents: every exception is
retried with the same backoff schedule; falling out of the loop raises a
fresh exception with no cause attached. -/
def uploadDocumentsGo (payload : List SearchDocument) (env : BatchEnv)
    (remaining retries : Nat) : CallResult (List Bool) :=
  match remaining with
  | 0 =>
    ⟨0, [], .error ⟨"Max retries reached for document upload to Azure AI Search.", none⟩⟩
  | r + 1 =>
    match env.upload retries payload with
    | .ok results => ⟨1, [], .ok results⟩
    | .exc _ =>
      let wait_time := RATE_LIMIT_RETRY_DELAY * BACKOFF_FACTOR ^ retries
      let rest := uploadDocumentsGo payload env r (retries + 1)
      ⟨rest.calls + 1, wait_time :: rest.waits, rest.result⟩

/-- ChunkGroupUploadTask._upload_documents. -/
def uploadDocuments (payload : List SearchDocument) (env : BatchEnv) :
    CallResult (List Bool) :=
  uploadDocumentsGo payload env MAX_RETRIES 0

/-- The ids of the batch chunks whose zip-aligned indexing result succeeded
(the chunks the for loop of _mark_chunks_as_uploaded sets to uploaded). -/
def succeededIds (chunks : List Chunk) (results : List Bool) : List Nat :=
  ((chunks.zip results).filter (fun p => p.2)).map (fun p => p.1.id)

/-- ChunkGroupUploadTask._mark_chunks_as_uploaded: zips the batch chunks with
the indexing results, sets status uploaded on each chunk whose result
succeeded, and commits once iff at least one chunk was updated.  Returns the
store after the commit and the updated flag. -/
def markChunksAsUploaded (db : DB) (chunks : List Chunk) (results : List Bool) :
    DB × Bool :=
  let ids := succeededIds chunks results
  if ids.isEmpty then (db, false)
  else
    ({ db with
        chunks := db.chunks.map (fun c =>
          if c.id ∈ ids then { c with status := "uploaded" } else c) },
      true)

/-- Observable outcome of one ChunkGroupUploadTask.run. -/
structure BatchRun where
  db : DB
  embedCalls : Nat
  embedWaits : List Nat
  uploadCalls : Nat
  uploadWaits : List Nat
  committed : Bool
  result : Except Exc Unit
deriving Repr

/-- ChunkGroupUploadTask.run: embed, then upload, then mark; a failure in
either remote stage propagates and leaves the store untouched. -/
def ChunkGroupUploadTask.run (t : ChunkGroupUploadTask) (db : DB)
    (env : BatchEnv) : BatchRun :=
  let prep := preparePayload t env
  match prep.result with
  | .error e => ⟨db, prep.calls, prep.waits, 0, [], false, .error e⟩
  | .ok payload =>
    let up := uploadDocuments payload env
    match up.result with
    | .error e => ⟨db, prep.calls, prep.waits, up.calls, up.waits, false, .error e⟩
    | .ok results =>
      let marked := markChunksAsUploaded db t.chunks results
      ⟨marked.1, prep.calls, prep.waits, up.calls, up.waits, marked.2, .ok ()⟩

/-- A FileUploadTask object: the fields used by _split_chunks and
finalization (the coordinator constructs it with batch_size := 10). -/
structure FileUploadTask where
  index_name : String
  file_id : Nat
  file_name : String
  chunks : List Chunk
  batch_size : Nat
deriving Repr

/-- Python range(start, stop, step1 + 1): the loop indices of _split_chunks.
The step is passed minus one so the function is total (the source only ever
runs it with a positive step, batch_size = 10), and the recursion is fuelled
so the definition stays structurally recursive: fuel = stop always suffices
because start grows by at least one per iteration. -/
def pythonRangeGo (stop step1 : Nat) : Nat → Nat → List Nat
  | 0, _ => []
  | fuel + 1, start =>
    if start < stop then
      start :: pythonRangeGo stop step1 fuel (start + (step1 + 1))
    else []

/-- Python range(0, stop, step) for positive step. -/
def pythonRange (stop step : Nat) : List Nat :=
  pythonRangeGo stop (step - 1) stop 0

/-- next on itertools.cycle(pool): the j-th value drawn is pool[j mod k]. -/
def cyclePool (pool : List EmbeddingConfig) (j : Nat) : EmbeddingConfig :=
  pool[j % pool.length]!

/-- FileUploadTask._split_chunks: for i in range(0, len(chunks), batch_size),
slice chunks[i : i + batch_size] and draw the next credential from the
round-robin iterator over embed_config_pool. -/
def FileUploadTask.splitChunks (t : FileUploadTask)
    (pool : List EmbeddingConfig) : List ChunkGroupUploadTask :=
  (pythonRange t.chunks.length t.batch_size).enum.map (fun ji =>
    { embed_config := cyclePool pool ji.1
      chunks := (t.chunks.drop ji.2).take t.batch_size
      file_id := t.file_id
      file_name := t.file_name })

/-- The chunk-status rows of the finalization query: chunk joined to
split_file on chunk.split_file_id = split_file.id, filtered to
split_file.file_id = fid. -/
def chunkStatusesForFile (db : DB) (fid : Nat) : List String :=
  db.chunks.flatMap (fun c =>
    (db.split_files.filter
        (fun sf => c.split_file_id = sf.id ∧ sf.file_id = fid)).map
      (fun _ => c.status))

/-- Set the status of the first file row with the given id (the row returned
by query(File).filter(File.id == file_id).first()). -/
def setFirstFileStatus (files : List File) (fid : Nat) (st : String) :
    List File :=
  match files with
  | [] => []
  | f :: rest =>
    if f.id = fid then { f with status := st } :: rest
    else f :: setFirstFileStatus rest fid st

/-- FileUploadTask._mark_file_as_uploaded: if the file row is missing, log
and return; re-read the statuses of every chunk owned through the file
split-files; if that set is non-empty and all uploaded, set the file status
to uploaded and commit, otherwise only log a warning. -/
def markFileAsUploaded (db : DB) (fid : Nat) : DB :=
  match db.files.find? (fun f => f.id = fid) with
  | none => db
  | some _ =>
    let sts := chunkStatusesForFile db fid
    if ¬sts.isEmpty ∧ sts.all (fun s => s = "uploaded") then
      { db with files := setFirstFileStatus db.files fid "uploaded" }
    else db

/-- The gather of _upload_chunk_groups: run every batch (each batch failure
is caught and logged by upload_task, so the fold always continues), threading
the store through.  envs i is the environment batch i runs against. -/
def processGroups (db : DB) (groups : List ChunkGroupUploadTask)
    (envs : Nat → BatchEnv) : DB :=
  groups.enum.foldl
    (fun d gi => (ChunkGroupUploadTask.run gi.2 d (envs gi.1)).db) db

/-- FileUploadTask.run / _upload_chunk_groups: run all chunk groups, then
finalize the file status. -/
def FileUploadTask.run (t : FileUploadTask) (pool : List EmbeddingConfig)
    (envs : Nat → BatchEnv) (db : DB) : DB :=
  markFileAsUploaded (processGroups db (t.splitChunks pool) envs) t.file_id

/-- UploadToAISearchMainAgent._fetch_chunks_to_upload: chunk join split_file
join file, filtered to chunk.status = wait-for-upload, ordered by
split_file.id, projected to (chunk, file id, file name, index name).  The
sort key is kept alongside each row until the ordering is applied. -/
def insertByKey (x : Nat × (Chunk × Nat × String × String)) :
    List (Nat × (Chunk × Nat × String × String)) →
      List (Nat × (Chunk × Nat × String × String))
  | [] => [x]
  | y :: ys => if x.1 < y.1 then x :: y :: ys else y :: insertByKey x ys

def sortByKey :
    List (Nat × (Chunk × Nat × String × String)) →
      List (Nat × (Chunk × Nat × String × String))
  | [] => []
  | x :: xs => insertByKey x (sortByKey xs)

def fetchChunksToUpload (db : DB) : List (Chunk × Nat × String × String) :=
  let rows :=
    (db.chunks.filter (fun c => c.status = "wait-for-upload")).flatMap (fun c =>
      (db.split_files.filter (fun sf => c.split_file_id = sf.id)).flatMap
        (fun sf =>
          (db.files.filter (fun f => sf.file_id = f.id)).map (fun f =>
            (sf.id, (c, f.id, f.name, f.index_name)))))
  (sortByKey rows).map (fun r => r.2)

/-- One entry of the file_map dictionary built by _get_file_map. -/
structure FileGroup where
  file_id : Nat
  index_name : String
  file_name : String
  chunks : List Chunk
deriving Repr

/-- Insert one fetched row into the file_map: the first row of a file id
creates the entry (recording that row index name and file name); every row
appends its chunk to the entry chunk list.  Dictionary insertion order is
preserved. -/
def insertRow (groups : List FileGroup) (row : Chunk × Nat × String × String) :
    List FileGroup :=
  match groups with
  | [] => [⟨row.2.1, row.2.2.2, row.2.2.1, [row.1]⟩]
  | g :: gs =>
    if g.file_id = row.2.1 then
      { g with chunks := g.chunks ++ [row.1] } :: gs
    else g :: insertRow gs row

/-- UploadToAISearchMainAgent._get_file_map. -/
def getFileMap (rows : List (Chunk × Nat × String × String)) : List FileGroup :=
  rows.foldl insertRow []

/-- UploadToAISearchMainAgent._get_file_upload_tasks: one FileUploadTask per
file_map entry, always with batch_size 10. -/
def getFileUploadTasks (fmap : List FileGroup) : List FileUploadTask :=
  fmap.map (fun g =>
    { index_name := g.index_name
      file_id := g.file_id
      file_name := g.file_name
      chunks := g.chunks
      batch_size := 10 })

/-- UploadToAISearchMainAgent.run: fetch the pending chunks once, group them
by file, build the tasks, then run every file task (gathered; failures inside
a task are already absorbed at batch level).  envs i j is the environment
batch j of file task i runs against. -/
def UploadToAISearchMainAgent.run (db : DB) (pool : List EmbeddingConfig)
    (envs : Nat → Nat → BatchEnv) : DB :=
  let tasks := getFileUploadTasks (getFileMap (fetchChunksToUpload db))
  tasks.enum.foldl (fun d ti => FileUploadTask.run ti.2 pool (envs ti.1) d) db

/-- Status of the first chunk row with a given id. -/
def chunkStatus (db : DB) (cid : Nat) : Option String :=
  (db.chunks.find? (fun c => c.id = cid)).map Chunk.status

/-- Status of the first file row with a given id. -/
def fileStatus (db : DB) (fid : Nat) : Option String :=
  (db.files.find? (fun f => f.id = fid)).map File.status

/-! ## Helper lemmas -/

lemma map_id_of {α : Type} (l : List α) (f : α → α) (h : ∀ a ∈ l, f a = a) :
    l.map f = l := by
  calc l.map f = l.map id := List.map_congr_left (fun a ha => h a ha)
  _ = l := List.map_id l

lemma zip_take_length {α β : Type} (l : List α) (r : List β) :
    l.zip r = (l.take r.length).zip r := by
  induction l generalizing r with
  | nil => simp
  | cons a l ih =>
    cases r with
    | nil => simp
    | cons b r => simp [List.zip_cons_cons, List.take_succ_cons, ih]

lemma find?_map_id_pres (l : List Chunk) (g : Chunk → Chunk)
    (hg : ∀ c, (g c).id = c.id) (cid : Nat) :
    (l.map g).find? (fun c => c.id = cid) =
      (l.find? (fun c => c.id = cid)).map g := by
  rw [List.find?_map]
  have hp : ((fun c : Chunk => decide (c.id = cid)) ∘ g) =
      fun c : Chunk => decide (c.id = cid) := by
    funext c
    simp [Function.comp, hg]
  rw [hp]

/-- Membership in the succeeded-id list is membership of a succeeded pair in
the positional zip of chunks and results. -/
lemma mem_succeededIds (chunks : List Chunk) (results : List Bool) (x : Nat) :
    x ∈ succeededIds chunks results ↔
      ∃ p, p ∈ chunks.zip results ∧ p.2 = true ∧ p.1.id = x := by
  simp [succeededIds, List.mem_filter, and_assoc]

/-- Status lookup after _mark_chunks_as_uploaded: the first chunk row with a
given id keeps its status unless the id is among the succeeded batch ids. -/
lemma chunkStatus_mark (db : DB) (chunks : List Chunk) (results : List Bool)
    (cid : Nat) :
    chunkStatus (markChunksAsUploaded db chunks results).1 cid =
      if cid ∈ succeededIds chunks results
      then (chunkStatus db cid).map (fun _ => "uploaded")
      else chunkStatus db cid := by
  unfold markChunksAsUploaded
  by_cases he : (succeededIds chunks results).isEmpty
  · have : succeededIds chunks results = [] := List.isEmpty_iff.mp he
    simp [he, this]
  · simp only [he, if_false, Bool.false_eq_true, ite_false]
    unfold chunkStatus
    rw [find?_map_id_pres]
    · cases hf : db.chunks.find? (fun c => c.id = cid) with
      | none => simp [hf]
      | some c0 =>
        have hc0 : c0.id = cid := by
          have := List.find?_some hf
          simpa using this
        by_cases hin : cid ∈ succeededIds chunks results
        · simp [hf, hin, hc0]
        · simp [hf, hin, hc0]
    · intro c
      by_cases h : c.id ∈ succeededIds chunks results <;> simp [h]

/-- Claim C3: for a batch with per-document results, exactly the chunks whose
zip-aligned result succeeded get status uploaded; the commit happens iff at
least one pair succeeded; rows whose id is not among the succeeded ids keep
their status; files and split-files are untouched. -/
theorem claim_c3 (db : DB) (chunks : List Chunk) (results : List Bool) :
    (markChunksAsUploaded db chunks results).1.files = db.files ∧
    (markChunksAsUploaded db chunks results).1.split_files = db.split_files ∧
    (markChunksAsUploaded db chunks results).1.chunks =
      db.chunks.map (fun c =>
        if c.id ∈ succeededIds chunks results
        then { c with status := "uploaded" } else c) ∧
    ((markChunksAsUploaded db chunks results).2 = true ↔
      ∃ p, p ∈ chunks.zip results ∧ p.2 = true) ∧
    (∀ cid, cid ∉ succeededIds chunks results →
      chunkStatus (markChunksAsUploaded db chunks results).1 cid =
        chunkStatus db cid) := by
  refine ⟨?_, ?_, ?_, ?_, ?_⟩
  · unfold markChunksAsUploaded
    by_cases he : (succeededIds chunks results).isEmpty <;> simp [he]
  · unfold markChunksAsUploaded
    by_cases he : (succeededIds chunks results).isEmpty <;> simp [he]
  · unfold markChunksAsUploaded
    by_cases he : (succeededIds chunks results).isEmpty
    · have hnil : succeededIds chunks results = [] := List.isEmpty_iff.mp he
      simp only [he, if_true, hnil]
      exact (map_id_of _ _ (fun c _ => by simp)).symm
    · simp [he]
  · unfold markChunksAsUploaded
    by_cases he : (succeededIds chunks results).isEmpty
    · have hnil : succeededIds chunks results = [] := List.isEmpty_iff.mp he
      simp only [he, if_true]
      constructor
      · intro h
        exact absurd h (by simp)
      · rintro ⟨p, hp, hp2⟩
        have : p.1.id ∈ succeededIds chunks results :=
          (mem_succeededIds chunks results p.1.id).mpr ⟨p, hp, hp2, rfl⟩
        rw [hnil] at this
        exact absurd this (by simp)
    · have hne : succeededIds chunks results ≠ [] := by
        intro hh
        rw [hh] at he
        exact he rfl
      rcases List.exists_mem_of_ne_nil _ hne with ⟨x, hx⟩
      rcases (mem_succeededIds chunks results x).mp hx with ⟨p, hp, hp2, _⟩
      simp only [he, if_false, Bool.false_eq_true, ite_false]
      exact ⟨fun _ => ⟨p, hp, hp2⟩, fun _ => trivial⟩
  · intro cid hcid
    rw [chunkStatus_mark db chunks results cid, if_neg hcid]

/-- Claim C10: _mark_chunks_as_uploaded performs no count check; with fewer
results than chunks the zip silently truncates: the marking equals the
marking of the first results.length chunks, and every chunk at a position
beyond the result list keeps its status. -/
theorem claim_c10 (db : DB) (chunks : List Chunk) (results : List Bool)
    (hlen : results.length < chunks.length)
    (hnd : (chunks.map Chunk.id).Nodup) :
    markChunksAsUploaded db chunks results =
      markChunksAsUploaded db (chunks.take results.length) results ∧
    (∀ i (hi : i < chunks.length), results.length ≤ i →
      chunkStatus (markChunksAsUploaded db chunks results).1
          (chunks.get ⟨i, hi⟩).id =
        chunkStatus db (chunks.get ⟨i, hi⟩).id) := by
  have hids : succeededIds chunks results =
      succeededIds (chunks.take results.length) results := by
    unfold succeededIds
    rw [← zip_take_length]
  constructor
  · unfold markChunksAsUploaded
    rw [hids]
  · intro i hi him
    rw [chunkStatus_mark db chunks results]
    rw [if_neg ?_]
    intro hmem
    rcases (mem_succeededIds chunks results _).mp hmem with ⟨p, hp, _, hpid⟩
    rcases List.mem_iff_getElem.mp hp with ⟨j, hj, hjp⟩
    have hjlt : j < results.length := by
      have := hj
      rw [List.length_zip] at this
      omega
    have hp1 : p.1 = chunks[j] := by
      rw [← hjp, List.getElem_zip]
    have hideq : chunks[j].id = chunks[i].id := by
      rw [← hp1, hpid]
      simp [List.get_eq_getElem]
    have hji : j = i := by
      have hinj := List.nodup_iff_injective_getElem.mp hnd
      have hjm : j < (chunks.map Chunk.id).length := by
        simp
        omega
      have him2 : i < (chunks.map Chunk.id).length := by
        simp
        omega
      have := @hinj ⟨j, hjm⟩ ⟨i, him2⟩ (by simp [hideq])
      simpa using congrArg Fin.val this
    omega

/-- Lookup after updating the status of the first file row with id fid. -/
lemma find?_setFirstFileStatus (files : List File) (fid : Nat) (st : String)
    (g : Nat) :
    (setFirstFileStatus files fid st).find? (fun f => f.id = g) =
      if g = fid then
        (files.find? (fun f => f.id = fid)).map (fun f => { f with status := st })
      else files.find? (fun f => f.id = g) := by
  induction files with
  | nil => by_cases hg : g = fid <;> simp [setFirstFileStatus, hg]
  | cons f rest ih =>
    by_cases hg : g = fid
    · subst hg
      by_cases hf : f.id = g
      · simp [setFirstFileStatus, hf, List.find?_cons]
      · simp [setFirstFileStatus, hf, List.find?_cons, ih]
    · by_cases hf : f.id = fid
      · have hfg : ¬(f.id = g) := by
          rw [hf]
          exact fun hh => hg hh.symm
        have hgf : ¬(fid = g) := fun hh => hg hh.symm
        simp [setFirstFileStatus, hf, hg, hfg, hgf, List.find?_cons]
      · by_cases hfg : f.id = g
        · simp [setFirstFileStatus, hf, hg, hfg, List.find?_cons]
        · simp [setFirstFileStatus, hf, hg, hfg, List.find?_cons, ih]

/-- Claim C1: finalization only ever advances the file status to uploaded,
exactly when the file row exists and the chunk-status set of the file is
non-empty with every status uploaded; in every other case (missing row
included) the store is unchanged, and chunk and split-file rows are never
touched.  The last conjunct records that FileUploadTask runs finalization
after all of its chunk batches have been processed. -/
theorem claim_c1 (db : DB) (fid : Nat) :
    (markFileAsUploaded db fid).chunks = db.chunks ∧
    (markFileAsUploaded db fid).split_files = db.split_files ∧
    (((db.files.find? (fun f => f.id = fid)).isSome = true ∧
        chunkStatusesForFile db fid ≠ [] ∧
        ∀ s ∈ chunkStatusesForFile db fid, s = "uploaded") →
      (markFileAsUploaded db fid).files =
        setFirstFileStatus db.files fid "uploaded") ∧
    ((¬((db.files.find? (fun f => f.id = fid)).isSome = true ∧
        chunkStatusesForFile db fid ≠ [] ∧
        ∀ s ∈ chunkStatusesForFile db fid, s = "uploaded")) →
      markFileAsUploaded db fid = db) ∧
    (∀ g, fileStatus (markFileAsUploaded db fid) g = fileStatus db g ∨
      (g = fid ∧ fileStatus (markFileAsUploaded db fid) g = some "uploaded")) ∧
    (∀ (t : FileUploadTask) (pool : List EmbeddingConfig)
        (envs : Nat → BatchEnv) (dbx : DB),
      FileUploadTask.run t pool envs dbx =
        markFileAsUploaded (processGroups dbx (t.splitChunks pool) envs)
          t.file_id) := by
  have hcond : (¬(chunkStatusesForFile db fid).isEmpty ∧
      (chunkStatusesForFile db fid).all (fun s => s = "uploaded")) ↔
      (chunkStatusesForFile db fid ≠ [] ∧
        ∀ s ∈ chunkStatusesForFile db fid, s = "uploaded") := by
    rw [List.all_eq_true]
    constructor
    · rintro ⟨h1, h2⟩
      exact ⟨fun hh => h1 (by simp [hh]), fun s hs => by simpa using h2 s hs⟩
    · rintro ⟨h1, h2⟩
      exact ⟨fun hh => h1 (List.isEmpty_iff.mp hh), fun s hs => by simp [h2 s hs]⟩
  refine ⟨?_, ?_, ?_, ?_, ?_, fun t pool envs dbx => rfl⟩
  · unfold markFileAsUploaded
    cases hf : db.files.find? (fun f => f.id = fid) with
    | none => rfl
    | some f0 =>
      by_cases hc : (¬(chunkStatusesForFile db fid).isEmpty ∧
          (chunkStatusesForFile db fid).all (fun s => s = "uploaded"))
      · rw [if_pos hc]
      · rw [if_neg hc]
  · unfold markFileAsUploaded
    cases hf : db.files.find? (fun f => f.id = fid) with
    | none => rfl
    | some f0 =>
      by_cases hc : (¬(chunkStatusesForFile db fid).isEmpty ∧
          (chunkStatusesForFile db fid).all (fun s => s = "uploaded"))
      · rw [if_pos hc]
      · rw [if_neg hc]
  · rintro ⟨h1, h2, h3⟩
    unfold markFileAsUploaded
    cases hf : db.files.find? (fun f => f.id = fid) with
    | none =>
      rw [hf] at h1
      simp at h1
    | some f0 =>
      rw [if_pos (hcond.mpr ⟨h2, h3⟩)]
  · intro hneg
    unfold markFileAsUploaded
    cases hf : db.files.find? (fun f => f.id = fid) with
    | none => rfl
    | some f0 =>
      rw [if_neg ?_]
      intro hc
      exact hneg ⟨by simp [hf], (hcond.mp hc).1, (hcond.mp hc).2⟩
  · intro g
    unfold markFileAsUploaded
    cases hf : db.files.find? (fun f => f.id = fid) with
    | none => exact Or.inl rfl
    | some f0 =>
      by_cases hc : (¬(chunkStatusesForFile db fid).isEmpty ∧
          (chunkStatusesForFile db fid).all (fun s => s = "uploaded"))
      · rw [if_pos hc]
        by_cases hg : g = fid
        · refine Or.inr ⟨hg, ?_⟩
          unfold fileStatus
          simp only [find?_setFirstFileStatus, hg, if_pos rfl]
          rw [hf]
          rfl
        · refine Or.inl ?_
          unfold fileStatus
          rw [find?_setFirstFileStatus]
          simp [hg]
      · rw [if_neg hc]
        exact Or.inl rfl

/-- A batch run that raises leaves the store untouched: the marking step only
runs after both remote stages succeeded. -/
lemma run_db_of_error (t : ChunkGroupUploadTask) (db : DB) (env : BatchEnv)
    (e : Exc) (h : (t.run db env).result = .error e) :
    (t.run db env).db = db := by
  unfold ChunkGroupUploadTask.run at h ⊢
  cases hp : (preparePayload t env).result with
  | error e2 => simp [hp]
  | ok payload =>
    cases hu : (uploadDocuments payload env).result with
    | error e2 => simp [hp, hu]
    | ok results => simp [hp, hu] at h

/-- Three consecutive rate-limit failures exhaust _prepare_payload: three
calls, sleeps of 10, 20 and 40 seconds, and a fresh retries-exhausted
exception with no cause. -/
lemma prepare_all_rateLimit (t : ChunkGroupUploadTask) (env : BatchEnv)
    (h : ∀ i, i < MAX_RETRIES →
      env.embed i (t.chunks.map Chunk.content) = .rateLimit) :
    preparePayload t env =
      ⟨3, [10, 20, 40],
        .error ⟨"Max retries reached for embedding API due to rate limits.", none⟩⟩ := by
  have h0 := h 0 (by decide)
  have h1 := h 1 (by decide)
  have h2 := h 2 (by decide)
  show preparePayloadGo t env 3 0 = _
  simp [preparePayloadGo, h0, h1, h2, RATE_LIMIT_RETRY_DELAY, BACKOFF_FACTOR]

/-- Three consecutive exceptions exhaust _upload_documents: three calls,
sleeps of 10, 20 and 40 seconds, and a fresh retries-exhausted exception
with no cause. -/
lemma upload_all_exc (payload : List SearchDocument) (env : BatchEnv)
    (m : Nat → String)
    (h : ∀ i, i < MAX_RETRIES → env.upload i payload = .exc (m i)) :
    uploadDocuments payload env =
      ⟨3, [10, 20, 40],
        .error ⟨"Max retries reached for document upload to Azure AI Search.", none⟩⟩ := by
  have h0 := h 0 (by decide)
  have h1 := h 1 (by decide)
  have h2 := h 2 (by decide)
  show uploadDocumentsGo payload env 3 0 = _
  simp [uploadDocumentsGo, h0, h1, h2, RATE_LIMIT_RETRY_DELAY, BACKOFF_FACTOR]

/-- Claim C2: if the embedding call comes back (after j rate-limit retries)
with a vector count different from the chunk count, the batch fails at once
with the mismatch error: no further embedding call, no upload call, and the
store untouched. -/
theorem claim_c2 (db : DB) (t : ChunkGroupUploadTask) (env : BatchEnv)
    (j : Nat) (embs : List (List Int))
    (hj : j < MAX_RETRIES)
    (hrl : ∀ i, i < j → env.embed i (t.chunks.map Chunk.content) = .rateLimit)
    (hok : env.embed j (t.chunks.map Chunk.content) = .ok embs)
    (hmm : embs.length ≠ t.chunks.length) :
    (t.run db env).result =
      .error ⟨"Mismatch between number of chunks and embeddings.", none⟩ ∧
    (t.run db env).embedCalls = j + 1 ∧
    (t.run db env).uploadCalls = 0 ∧
    (t.run db env).db = db := by
  have hmm2 : t.chunks.length ≠ embs.length := fun hh => hmm hh.symm
  have hprep : (preparePayload t env).result =
      .error ⟨"Mismatch between number of chunks and embeddings.", none⟩ ∧
      (preparePayload t env).calls = j + 1 := by
    have hj3 : j < 3 := hj
    show (preparePayloadGo t env 3 0).result = _ ∧
      (preparePayloadGo t env 3 0).calls = j + 1
    interval_cases j
    · simp [preparePayloadGo, hok, hmm2]
    · have h0 := hrl 0 (by decide)
      simp [preparePayloadGo, h0, hok, hmm2]
    · have h0 := hrl 0 (by decide)
      have h1 := hrl 1 (by decide)
      simp [preparePayloadGo, h0, h1, hok, hmm2]
  unfold ChunkGroupUploadTask.run
  simp [hprep.1, hprep.2]

/-- Claim C5: the embedding step makes at most MAX_RETRIES calls; the i-th
sleep is RATE_LIMIT_RETRY_DELAY * BACKOFF_FACTOR ^ i seconds; a
non-rate-limit error arriving at any attempt — after any number of prior
rate-limit retries — propagates at once with no further call; two rate
limits then a success give exactly 3 calls with sleeps 10 and 20 and a
successful payload; three rate limits raise the retries-exhausted failure
with the store untouched. -/
theorem claim_c5 (db : DB) (t : ChunkGroupUploadTask) (env : BatchEnv) :
    (preparePayload t env).calls ≤ MAX_RETRIES ∧
    (preparePayload t env).waits =
      (List.range (preparePayload t env).waits.length).map
        (fun i => RATE_LIMIT_RETRY_DELAY * BACKOFF_FACTOR ^ i) ∧
    (∀ m j, j < MAX_RETRIES →
      (∀ i, i < j → env.embed i (t.chunks.map Chunk.content) = .rateLimit) →
      env.embed j (t.chunks.map Chunk.content) = .exc m →
      (preparePayload t env).result = .error ⟨m, none⟩ ∧
      (preparePayload t env).calls = j + 1) ∧
    (∀ embs, env.embed 0 (t.chunks.map Chunk.content) = .rateLimit →
      env.embed 1 (t.chunks.map Chunk.content) = .rateLimit →
      env.embed 2 (t.chunks.map Chunk.content) = .ok embs →
      t.chunks.length = embs.length →
      (preparePayload t env).calls = 3 ∧
      (preparePayload t env).waits = [10, 20] ∧
      (preparePayload t env).result = .ok (buildPayload t embs)) ∧
    ((∀ i, i < MAX_RETRIES →
        env.embed i (t.chunks.map Chunk.content) = .rateLimit) →
      (preparePayload t env).result =
        .error ⟨"Max retries reached for embedding API due to rate limits.", none⟩ ∧
      (preparePayload t env).calls = MAX_RETRIES ∧
      (t.run db env).db = db) := by
  refine ⟨?_, ?_, ?_, ?_, ?_⟩
  · show (preparePayloadGo t env 3 0).calls ≤ 3
    cases h0 : env.embed 0 (t.chunks.map Chunk.content) with
    | ok e =>
      by_cases hl : t.chunks.length ≠ e.length <;> simp [preparePayloadGo, h0, hl]
    | exc m => simp [preparePayloadGo, h0]
    | rateLimit =>
      cases h1 : env.embed 1 (t.chunks.map Chunk.content) with
      | ok e =>
        by_cases hl : t.chunks.length ≠ e.length <;>
          simp [preparePayloadGo, h0, h1, hl]
      | exc m => simp [preparePayloadGo, h0, h1]
      | rateLimit =>
        cases h2 : env.embed 2 (t.chunks.map Chunk.content) with
        | ok e =>
          by_cases hl : t.chunks.length ≠ e.length <;>
            simp [preparePayloadGo, h0, h1, h2, hl]
        | exc m => simp [preparePayloadGo, h0, h1, h2]
        | rateLimit => simp [preparePayloadGo, h0, h1, h2]
  · show (preparePayloadGo t env 3 0).waits =
      (List.range (preparePayloadGo t env 3 0).waits.length).map
        (fun i => RATE_LIMIT_RETRY_DELAY * BACKOFF_FACTOR ^ i)
    cases h0 : env.embed 0 (t.chunks.map Chunk.content) with
    | ok e =>
      by_cases hl : t.chunks.length ≠ e.length <;> simp [preparePayloadGo, h0, hl]
    | exc m => simp [preparePayloadGo, h0]
    | rateLimit =>
      cases h1 : env.embed 1 (t.chunks.map Chunk.content) with
      | ok e =>
        by_cases hl : t.chunks.length ≠ e.length <;>
          simp [preparePayloadGo, h0, h1, hl, RATE_LIMIT_RETRY_DELAY,
            BACKOFF_FACTOR, List.range_succ]
      | exc m =>
        simp [preparePayloadGo, h0, h1, RATE_LIMIT_RETRY_DELAY, BACKOFF_FACTOR,
          List.range_succ]
      | rateLimit =>
        cases h2 : env.embed 2 (t.chunks.map Chunk.content) with
        | ok e =>
          by_cases hl : t.chunks.length ≠ e.length <;>
            simp [preparePayloadGo, h0, h1, h2, hl, RATE_LIMIT_RETRY_DELAY,
              BACKOFF_FACTOR, List.range_succ]
        | exc m =>
          simp [preparePayloadGo, h0, h1, h2, RATE_LIMIT_RETRY_DELAY,
            BACKOFF_FACTOR, List.range_succ]
        | rateLimit =>
          simp [preparePayloadGo, h0, h1, h2, RATE_LIMIT_RETRY_DELAY,
            BACKOFF_FACTOR, List.range_succ]
  · intro m j hj hrl hm
    have hj3 : j < 3 := hj
    constructor <;>
      · show _
        interval_cases j
        · simp [preparePayload, preparePayloadGo, hm]
        · have h0 := hrl 0 (by decide)
          simp [preparePayload, preparePayloadGo, h0, hm]
        · have h0 := hrl 0 (by decide)
          have h1 := hrl 1 (by decide)
          simp [preparePayload, preparePayloadGo, h0, h1, hm]
  · intro embs h0 h1 h2 hlen
    have hl : ¬(t.chunks.length ≠ embs.length) := by
      intro hh
      exact hh hlen
    refine ⟨?_, ?_, ?_⟩ <;>
      · show _
        simp [preparePayload, preparePayloadGo, h0, h1, h2, hl,
          RATE_LIMIT_RETRY_DELAY, BACKOFF_FACTOR]
  · intro hall
    have hp := prepare_all_rateLimit t env hall
    refine ⟨by rw [hp], by rw [hp]; rfl, ?_⟩
    apply run_db_of_error t db env
      ⟨"Max retries reached for embedding API due to rate limits.", none⟩
    unfold ChunkGroupUploadTask.run
    simp [hp]

/-- Claim C6: the upload step retries the whole document batch on any
exception (no failure-kind distinction), makes at most MAX_RETRIES attempts,
returns the per-document results on a later success, and after exhaustion
raises the retries-exhausted failure with none of the batch chunks marked
(store untouched). -/
theorem claim_c6 (db : DB) (t : ChunkGroupUploadTask)
    (payload : List SearchDocument) (env : BatchEnv) :
    (uploadDocuments payload env).calls ≤ MAX_RETRIES ∧
    (∀ (m : Nat → String) (j : Nat) (r : List Bool), j < MAX_RETRIES →
      (∀ i, i < j → env.upload i payload = .exc (m i)) →
      env.upload j payload = .ok r →
      (uploadDocuments payload env).result = .ok r ∧
      (uploadDocuments payload env).calls = j + 1) ∧
    (∀ (m : Nat → String), (∀ i, i < MAX_RETRIES → env.upload i payload = .exc (m i)) →
      (uploadDocuments payload env).result =
        .error ⟨"Max retries reached for document upload to Azure AI Search.", none⟩ ∧
      (uploadDocuments payload env).calls = MAX_RETRIES) ∧
    (∀ (m : Nat → String), (preparePayload t env).result = .ok payload →
      (∀ i, i < MAX_RETRIES → env.upload i payload = .exc (m i)) →
      (t.run db env).result =
        .error ⟨"Max retries reached for document upload to Azure AI Search.", none⟩ ∧
      (t.run db env).db = db) := by
  refine ⟨?_, ?_, ?_, ?_⟩
  · show (uploadDocumentsGo payload env 3 0).calls ≤ 3
    cases h0 : env.upload 0 payload with
    | ok r => simp [uploadDocumentsGo, h0]
    | exc m =>
      cases h1 : env.upload 1 payload with
      | ok r => simp [uploadDocumentsGo, h0, h1]
      | exc m =>
        cases h2 : env.upload 2 payload with
        | ok r => simp [uploadDocumentsGo, h0, h1, h2]
        | exc m => simp [uploadDocumentsGo, h0, h1, h2]
  · intro m j r hj hexc hok
    have hj3 : j < 3 := hj
    constructor <;>
      · show _
        interval_cases j
        · simp [uploadDocuments, uploadDocumentsGo, hok]
        · have h0 := hexc 0 (by decide)
          simp [uploadDocuments, uploadDocumentsGo, h0, hok]
        · have h0 := hexc 0 (by decide)
          have h1 := hexc 1 (by decide)
          simp [uploadDocuments, uploadDocumentsGo, h0, h1, hok]
  · intro m hall
    have hu := upload_all_exc payload env m hall
    exact ⟨by rw [hu], by rw [hu]; rfl⟩
  · intro m hprep hall
    have hu := upload_all_exc payload env m hall
    have hres : (t.run db env).result =
        .error ⟨"Max retries reached for document upload to Azure AI Search.", none⟩ := by
      unfold ChunkGroupUploadTask.run
      simp [hprep, hu]
    exact ⟨hres, run_db_of_error t db env _ hres⟩

/-- Concrete batch for the C4 counterexample. -/
def c4task : ChunkGroupUploadTask :=
  ⟨⟨"e", "d", "v", "k"⟩, [⟨1, "a1", "t1", "wait-for-upload", 1⟩], 1, "f1"⟩

/-- Environment whose embedding calls always hit the rate limit and whose
upload calls always raise. -/
def c4env : BatchEnv :=
  ⟨fun _ _ => .rateLimit, fun _ _ => .exc "ServiceUnavailable"⟩

/-- Claim C4 counterexample: at a concrete input whose last underlying causes
are a rate-limit error and a ServiceUnavailable exception, both
retries-exhausted failures carry cause none — the last underlying cause is
not included, contradicting the claim. -/
theorem claim_c4_counterexample :
    (preparePayload c4task c4env).result =
      .error ⟨"Max retries reached for embedding API due to rate limits.", none⟩ ∧
    (uploadDocuments [] c4env).result =
      .error ⟨"Max retries reached for document upload to Azure AI Search.", none⟩ := by
  constructor <;> rfl

/-- Claim C4 (amended): both retries-exhausted failures carry only their
fixed message, with no underlying cause attached. -/
theorem claim_c4_amended (t : ChunkGroupUploadTask) (env : BatchEnv)
    (payload : List SearchDocument) (m : Nat → String)
    (hrl : ∀ i, i < MAX_RETRIES →
      env.embed i (t.chunks.map Chunk.content) = .rateLimit)
    (hup : ∀ i, i < MAX_RETRIES → env.upload i payload = .exc (m i)) :
    (preparePayload t env).result =
      .error ⟨"Max retries reached for embedding API due to rate limits.", none⟩ ∧
    (uploadDocuments payload env).result =
      .error ⟨"Max retries reached for document upload to Azure AI Search.", none⟩ := by
  rw [prepare_all_rateLimit t env hrl, upload_all_exc payload env m hup]
  exact ⟨rfl, rfl⟩

/-- Claim C4 witness: the amended claim applied at the concrete input. -/
theorem claim_c4_witness :
    (preparePayload c4task c4env).result =
      .error ⟨"Max retries reached for embedding API due to rate limits.", none⟩ ∧
    (uploadDocuments [] c4env).result =
      .error ⟨"Max retries reached for document upload to Azure AI Search.", none⟩ :=
  claim_c4_amended c4task c4env [] (fun _ => "ServiceUnavailable")
    (fun _ _ => rfl) (fun _ _ => rfl)

/-- The Python range loop enumerates start, start + step, ... below stop,
for any fuel covering the remaining distance. -/
lemma pythonRangeGo_eq (step1 stop : Nat) :
    ∀ (fuel start : Nat), stop - start ≤ fuel →
      pythonRangeGo stop step1 fuel start =
        (List.range ((stop - start + step1) / (step1 + 1))).map
          (fun j => start + j * (step1 + 1)) := by
  intro fuel
  induction fuel with
  | zero =>
    intro start h
    have h0 : (stop - start + step1) / (step1 + 1) = 0 :=
      Nat.div_eq_of_lt (by omega)
    rw [h0]
    rfl
  | succ fuel ih =>
    intro start h
    by_cases hlt : start < stop
    · rw [pythonRangeGo, if_pos hlt, ih (start + (step1 + 1)) (by omega)]
      have hq : (stop - start + step1) / (step1 + 1) =
          (stop - (start + (step1 + 1)) + step1) / (step1 + 1) + 1 := by
        rcases le_or_lt (start + (step1 + 1)) stop with hle | hlt2
        · have he : stop - start + step1 =
              (stop - (start + (step1 + 1)) + step1) + (step1 + 1) := by omega
          rw [he, Nat.add_div_right _ (Nat.succ_pos step1)]
        · have h1 : stop - (start + (step1 + 1)) = 0 := by omega
          have h2 : (stop - start + step1) / (step1 + 1) = 1 :=
            Nat.div_eq_of_lt_le (by omega) (by omega)
          have h3 : (0 + step1) / (step1 + 1) = 0 := Nat.div_eq_of_lt (by omega)
          rw [h1, h2, h3]
      rw [hq, List.range_succ_eq_map]
      simp only [List.map_cons, List.map_map]
      refine congrArg₂ List.cons (by omega) ?_
      refine List.map_congr_left (fun j hj => ?_)
      simp only [Function.comp_apply, Nat.succ_eq_add_one]
      ring
    · rw [pythonRangeGo, if_neg hlt]
      have h0 : (stop - start + step1) / (step1 + 1) = 0 :=
        Nat.div_eq_of_lt (by omega)
      rw [h0]
      rfl

/-- range(0, stop, step) for positive step: the ceil(stop / step) multiples
of step below stop. -/
lemma pythonRange_eq (stop step : Nat) (h : 0 < step) :
    pythonRange stop step =
      (List.range ((stop + step - 1) / step)).map (fun j => j * step) := by
  unfold pythonRange
  rw [pythonRangeGo_eq (step - 1) stop stop 0 (by omega)]
  have h1 : step - 1 + 1 = step := by omega
  have h2 : stop - 0 + (step - 1) = stop + step - 1 := by omega
  rw [h1, h2]
  exact List.map_congr_left (fun j hj => by omega)

/-- Concatenating the ceil(n/b) contiguous b-slices of a list rebuilds it. -/
lemma flatten_slices {α : Type} (b : Nat) (hb : 0 < b) :
    ∀ (n : Nat) (l : List α), l.length = n →
      ((List.range ((l.length + b - 1) / b)).map
        (fun j => (l.drop (j * b)).take b)).flatten = l := by
  intro n
  induction n using Nat.strong_induction_on with
  | _ n ih =>
    intro l hl
    cases l with
    | nil =>
      have h0 : (([] : List α).length + b - 1) / b = 0 := by
        simp only [List.length_nil]
        exact Nat.div_eq_of_lt (by omega)
      rw [h0]
      rfl
    | cons a l0 =>
      have hlen : 0 < (a :: l0 : List α).length := by simp
      have hd : ((a :: l0 : List α).drop b).length =
          (a :: l0 : List α).length - b := List.length_drop b _
      have hq : ((a :: l0 : List α).length + b - 1) / b =
          (((a :: l0 : List α).drop b).length + b - 1) / b + 1 := by
        rcases le_or_lt b (a :: l0 : List α).length with hle | hlt
        · rw [hd]
          have he : (a :: l0 : List α).length + b - 1 =
              ((a :: l0 : List α).length - b + b - 1) + b := by omega
          rw [he, Nat.add_div_right _ hb]
        · rw [hd]
          have h1 : (a :: l0 : List α).length - b = 0 := by omega
          have h2 : ((a :: l0 : List α).length + b - 1) / b = 1 :=
            Nat.div_eq_of_lt_le (by omega) (by omega)
          have h3 : (0 + b - 1) / b = 0 := Nat.div_eq_of_lt (by omega)
          rw [h1, h2, h3]
      rw [hq, List.range_succ_eq_map]
      simp only [List.map_cons, List.map_map, List.flatten_cons, Nat.zero_mul,
        List.drop_zero]
      have htail : ∀ j ∈ List.range
          ((((a :: l0 : List α).drop b).length + b - 1) / b),
          ((fun j => ((a :: l0 : List α).drop (j * b)).take b) ∘ Nat.succ) j =
            (((a :: l0 : List α).drop b).drop (j * b)).take b := by
        intro j hj
        simp only [Function.comp_apply, Nat.succ_eq_add_one]
        rw [List.drop_drop]
        congr 2
        ring
      rw [List.map_congr_left htail]
      rw [ih (((a :: l0 : List α).drop b).length) (by omega)
        ((a :: l0 : List α).drop b) rfl]
      exact List.take_append_drop b _

/-- The batches of _split_chunks in closed form: the j-th batch is the j-th
contiguous b-slice of the chunk list with the j-th round-robin credential. -/
lemma splitChunks_eq (t : FileUploadTask) (pool : List EmbeddingConfig)
    (hb : 0 < t.batch_size) :
    t.splitChunks pool =
      (List.range ((t.chunks.length + t.batch_size - 1) / t.batch_size)).map
        (fun j =>
          ⟨cyclePool pool j,
            (t.chunks.drop (j * t.batch_size)).take t.batch_size,
            t.file_id, t.file_name⟩) := by
  unfold FileUploadTask.splitChunks
  rw [pythonRange_eq _ _ hb]
  apply List.ext_getElem
  · simp [List.enum_length]
  · intro n h1 h2
    simp [List.getElem_map, List.getElem_enum, List.getElem_range]

/-- Claim C7: _split_chunks partitions the chunk list into ceil(n/b)
contiguous batches in fetch order (the i-th holding the i-th b-slice, hence
at most b chunks, with the concatenation rebuilding the list), assigns batch
i the credential at position i mod k of the pool, and the coordinator builds
every FileUploadTask with batch_size 10. -/
theorem claim_c7 (t : FileUploadTask) (pool : List EmbeddingConfig)
    (hb : 0 < t.batch_size) (_hp : pool ≠ []) :
    (t.splitChunks pool).length =
      (t.chunks.length + t.batch_size - 1) / t.batch_size ∧
    (∀ i (h : i < (t.splitChunks pool).length),
      ((t.splitChunks pool).get ⟨i, h⟩).chunks =
        (t.chunks.drop (i * t.batch_size)).take t.batch_size) ∧
    (∀ i (h : i < (t.splitChunks pool).length),
      ((t.splitChunks pool).get ⟨i, h⟩).chunks.length ≤ t.batch_size) ∧
    ((t.splitChunks pool).map ChunkGroupUploadTask.chunks).flatten = t.chunks ∧
    (∀ i (h : i < (t.splitChunks pool).length),
      ((t.splitChunks pool).get ⟨i, h⟩).embed_config =
        pool[i % pool.length]!) ∧
    (∀ (fmap : List FileGroup) (task : FileUploadTask),
      task ∈ getFileUploadTasks fmap → task.batch_size = 10) := by
  have hs := splitChunks_eq t pool hb
  refine ⟨?_, ?_, ?_, ?_, ?_, ?_⟩
  · rw [hs]
    simp
  · intro i h
    rw [List.get_eq_getElem, List.getElem_of_eq hs h]
    simp [List.getElem_map, List.getElem_range]
  · intro i h
    rw [List.get_eq_getElem, List.getElem_of_eq hs h]
    simp only [List.getElem_map, List.getElem_range]
    exact List.length_take_le _ _
  · rw [hs, List.map_map]
    have hcomp : ∀ j ∈ List.range
        ((t.chunks.length + t.batch_size - 1) / t.batch_size),
        (ChunkGroupUploadTask.chunks ∘ fun j =>
          (⟨cyclePool pool j,
            (t.chunks.drop (j * t.batch_size)).take t.batch_size,
            t.file_id, t.file_name⟩ : ChunkGroupUploadTask)) j =
          (t.chunks.drop (j * t.batch_size)).take t.batch_size := by
      intro j hj
      rfl
    rw [List.map_congr_left hcomp]
    exact flatten_slices t.batch_size hb t.chunks.length t.chunks rfl
  · intro i h
    rw [List.get_eq_getElem, List.getElem_of_eq hs h]
    simp [List.getElem_map, List.getElem_range, cyclePool]
  · intro fmap task htask
    rcases List.mem_map.mp htask with ⟨g, _, heq⟩
    rw [← heq]

lemma mem_insertByKey (x y : Nat × (Chunk × Nat × String × String))
    (l : List (Nat × (Chunk × Nat × String × String))) :
    y ∈ insertByKey x l ↔ y = x ∨ y ∈ l := by
  induction l with
  | nil => simp [insertByKey]
  | cons z zs ih =>
    by_cases h : x.1 < z.1
    · simp [insertByKey, h]
    · simp [insertByKey, h, ih]
      tauto

lemma mem_sortByKey (y : Nat × (Chunk × Nat × String × String))
    (l : List (Nat × (Chunk × Nat × String × String))) :
    y ∈ sortByKey l ↔ y ∈ l := by
  induction l with
  | nil => simp [sortByKey]
  | cons z zs ih => simp [sortByKey, mem_insertByKey, ih]

/-- Every row of the pending-chunk query carries a chunk whose status is
wait-for-upload, present in the store, joined through a split-file row to
the file id of the row. -/
lemma fetch_row_prop (db : DB) (row : Chunk × Nat × String × String)
    (hrow : row ∈ fetchChunksToUpload db) :
    row.1.status = "wait-for-upload" ∧ row.1 ∈ db.chunks ∧
      ∃ sf ∈ db.split_files, row.1.split_file_id = sf.id ∧
        sf.file_id = row.2.1 := by
  unfold fetchChunksToUpload at hrow
  rcases List.mem_map.mp hrow with ⟨r0, hr0, hr0eq⟩
  rw [mem_sortByKey] at hr0
  rcases List.mem_flatMap.mp hr0 with ⟨c, hc, hcr⟩
  rcases List.mem_flatMap.mp hcr with ⟨sf, hsf, hsfr⟩
  rcases List.mem_map.mp hsfr with ⟨f, hf, hfeq⟩
  rcases List.mem_filter.mp hc with ⟨hcmem, hcst⟩
  rcases List.mem_filter.mp hsf with ⟨hsfmem, hsfid⟩
  rcases List.mem_filter.mp hf with ⟨_hfmem, hffid⟩
  have hcst2 : c.status = "wait-for-upload" := by simpa using hcst
  have hsfid2 : c.split_file_id = sf.id := by simpa using hsfid
  have hffid2 : sf.file_id = f.id := by simpa using hffid
  have hrow2 : row = (c, f.id, f.name, f.index_name) := by
    rw [← hr0eq, ← hfeq]
  subst hrow2
  exact ⟨hcst2, hcmem, sf, hsfmem, hsfid2, hffid2⟩

/-- The file id of any group produced by insertRow is a file id already in
the accumulator or the file id of the inserted row. -/
lemma insertRow_fid (acc : List FileGroup) (row : Chunk × Nat × String × String)
    (x : Nat) (hx : x ∈ (insertRow acc row).map FileGroup.file_id) :
    x ∈ acc.map FileGroup.file_id ∨ x = row.2.1 := by
  induction acc with
  | nil =>
    simp [insertRow] at hx
    exact Or.inr hx
  | cons g gs ih =>
    by_cases h : g.file_id = row.2.1
    · simp only [insertRow, if_pos h, List.map_cons, List.mem_cons] at hx
      rcases hx with hx | hx
      · exact Or.inl (by simp [hx])
      · exact Or.inl (by simp [hx])
    · simp only [insertRow, if_neg h, List.map_cons, List.mem_cons] at hx
      rcases hx with hx | hx
      · exact Or.inl (by simp [hx])
      · rcases ih hx with h2 | h2
        · exact Or.inl (by simp [h2])
        · exact Or.inr h2

/-- Every group of the file map stems from some fetched row with its file
id. -/
lemma getFileMap_fid (rows : List (Chunk × Nat × String × String)) :
    ∀ (acc : List FileGroup) (g : FileGroup), g ∈ rows.foldl insertRow acc →
      g.file_id ∈ acc.map FileGroup.file_id ∨
        ∃ row ∈ rows, row.2.1 = g.file_id := by
  induction rows with
  | nil =>
    intro acc g hg
    exact Or.inl (List.mem_map.mpr ⟨g, hg, rfl⟩)
  | cons r rs ih =>
    intro acc g hg
    rcases ih (insertRow acc r) g hg with h | h
    · rcases insertRow_fid acc r _ h with h2 | h2
      · exact Or.inl h2
      · exact Or.inr ⟨r, by simp, h2.symm⟩
    · rcases h with ⟨row, hrow, heq⟩
      exact Or.inr ⟨row, by simp [hrow], heq⟩

/-- A chunk joined through a split-file row contributes its status to the
finalization query of that file. -/
lemma status_mem_chunkStatuses (db : DB) (c : Chunk) (sf : SplitFile)
    (fid : Nat) (hc : c ∈ db.chunks) (hsf : sf ∈ db.split_files)
    (hid : c.split_file_id = sf.id) (hfid : sf.file_id = fid) :
    c.status ∈ chunkStatusesForFile db fid := by
  unfold chunkStatusesForFile
  refine List.mem_flatMap.mpr ⟨c, hc, ?_⟩
  refine List.mem_map.mpr ⟨sf, ?_, rfl⟩
  exact List.mem_filter.mpr ⟨hsf, by simp [hid, hfid]⟩

/-- Finalization leaves the store unchanged whenever some chunk of the file
is not uploaded. -/
lemma markFileAsUploaded_id_of_pending (db : DB) (fid : Nat)
    (h : ∃ st ∈ chunkStatusesForFile db fid, st ≠ "uploaded") :
    markFileAsUploaded db fid = db := by
  unfold markFileAsUploaded
  cases hf : db.files.find? (fun f => f.id = fid) with
  | none => rfl
  | some f0 =>
    rw [if_neg ?_]
    rintro ⟨_, hall⟩
    rcases h with ⟨st, hst, hne⟩
    have := List.all_eq_true.mp hall st hst
    exact hne (by simpa using this)

/-- A fold whose step fixes the state on every list element fixes the
state. -/
lemma foldl_fixed {σ β : Type} (l : List β) (f : σ → β → σ) (d : σ)
    (h : ∀ x ∈ l, f d x = d) : l.foldl f d = d := by
  induction l with
  | nil => rfl
  | cons x xs ih =>
    rw [List.foldl_cons, h x (by simp)]
    exact ih (fun y hy => h y (by simp [hy]))

/-- A batch whose embedding calls all hit the rate limit leaves the store
untouched. -/
lemma run_all_rateLimit (t : ChunkGroupUploadTask) (db : DB) (env : BatchEnv)
    (h : ∀ a c, env.embed a c = .rateLimit) :
    (t.run db env).db = db := by
  apply run_db_of_error t db env
    ⟨"Max retries reached for embedding API due to rate limits.", none⟩
  unfold ChunkGroupUploadTask.run
  rw [prepare_all_rateLimit t env (fun i _ => h i _)]

/-- Claim C9: a failing batch is absorbed where it ran — it leaves the store
exactly as it found it, so sibling batches and the finalization step see the
same state as if the batch had been skipped — and the coordinator returns
normally with the store unchanged even when every batch of every file fails
(here: every embedding call rate-limited until exhaustion). -/
theorem claim_c9 (db : DB) (pool : List EmbeddingConfig)
    (envs : Nat → Nat → BatchEnv)
    (hall : ∀ i j a c, (envs i j).embed a c = EmbedOutcome.rateLimit) :
    (∀ (d : DB) (t : ChunkGroupUploadTask) (e : BatchEnv) (err : Exc),
      (t.run d e).result = .error err → (t.run d e).db = d) ∧
    UploadToAISearchMainAgent.run db pool envs = db := by
  refine ⟨fun d t e err herr => run_db_of_error t d e err herr, ?_⟩
  show (getFileUploadTasks (getFileMap (fetchChunksToUpload db))).enum.foldl
    (fun d ti => FileUploadTask.run ti.2 pool (envs ti.1) d) db = db
  apply foldl_fixed
  rintro ⟨i, task⟩ hti
  have htask : task ∈ getFileUploadTasks (getFileMap (fetchChunksToUpload db)) := by
    rcases List.mem_enum hti with ⟨hlt, heq⟩
    rw [heq]
    exact List.getElem_mem hlt
  have hgroups : processGroups db (task.splitChunks pool) (envs i) = db := by
    unfold processGroups
    apply foldl_fixed
    rintro ⟨j, g⟩ _
    exact run_all_rateLimit g db (envs i j) (fun a c => hall i j a c)
  show FileUploadTask.run task pool (envs i) db = db
  unfold FileUploadTask.run
  rw [hgroups]
  apply markFileAsUploaded_id_of_pending
  rcases List.mem_map.mp htask with ⟨grp, hgrp, hgeq⟩
  have hfid : task.file_id = grp.file_id := by
    rw [← hgeq]
  rcases getFileMap_fid (fetchChunksToUpload db) [] grp hgrp with h | h
  · simp at h
  · rcases h with ⟨row, hrow, hrowfid⟩
    rcases fetch_row_prop db row hrow with ⟨hst, hcmem, sf, hsfmem, hsid, hsfid⟩
    refine ⟨row.1.status, ?_, ?_⟩
    · exact status_mem_chunkStatuses db row.1 sf task.file_id hcmem hsfmem hsid
        (by rw [hsfid, hrowfid, hfid])
    · rw [hst]
      decide

/-- With no chunk pending, the pending-chunk query is empty. -/
lemma fetch_nil_of_no_pending (db : DB)
    (h : ∀ c ∈ db.chunks, c.status ≠ "wait-for-upload") :
    fetchChunksToUpload db = [] := by
  unfold fetchChunksToUpload
  have hf : db.chunks.filter (fun c => c.status = "wait-for-upload") = [] :=
    List.filter_eq_nil_iff.mpr (fun c hc => by simpa using h c hc)
  rw [hf]
  rfl

/-- With no chunk pending, a coordinator run leaves the store unchanged. -/
lemma run_no_pending (db : DB) (pool : List EmbeddingConfig)
    (envs : Nat → Nat → BatchEnv)
    (h : ∀ c ∈ db.chunks, c.status ≠ "wait-for-upload") :
    UploadToAISearchMainAgent.run db pool envs = db := by
  show (getFileUploadTasks (getFileMap (fetchChunksToUpload db))).enum.foldl
    (fun d ti => FileUploadTask.run ti.2 pool (envs ti.1) d) db = db
  rw [fetch_nil_of_no_pending db h]
  rfl

/-- Claim C8 (amended): the pending-chunk query selects only chunks with
status wait-for-upload — uploaded chunks are never re-fetched, re-embedded
or re-uploaded — and whenever a run leaves no chunk in wait-for-upload, a
second run leaves the end state exactly unchanged.  (The unconditional
two-run equality of the original claim fails; see the counterexample.) -/
theorem claim_c8 (db : DB) (pool : List EmbeddingConfig)
    (envs : Nat → Nat → BatchEnv) :
    (∀ row ∈ fetchChunksToUpload db, row.1.status = "wait-for-upload") ∧
    ((∀ c ∈ (UploadToAISearchMainAgent.run db pool envs).chunks,
        c.status ≠ "wait-for-upload") →
      UploadToAISearchMainAgent.run
          (UploadToAISearchMainAgent.run db pool envs) pool envs =
        UploadToAISearchMainAgent.run db pool envs) := by
  refine ⟨fun row hrow => (fetch_row_prop db row hrow).1, fun h => ?_⟩
  exact run_no_pending _ pool envs h

/-- One chunk row for the concrete pipeline stores. -/
def c8chunk (i : Nat) : Chunk :=
  ⟨i, "a" ++ toString i, "t" ++ toString i, "wait-for-upload", 1⟩

/-- Eleven pending chunks of one file: two batches at batch size 10. -/
def c8db : DB :=
  ⟨[⟨1, "idx", "f1", "processing"⟩], [⟨1, 1⟩],
    (List.range 11).map (fun i => c8chunk (i + 1))⟩

/-- A deterministic pair of services: embedding a batch whose content list is
exactly the singleton of chunk 1 hits the rate limit (so that batch exhausts
its retries), every other embedding call succeeds; the index accepts the
documents of chunks 1 and 7 to 11 and rejects the rest. -/
def c8env : BatchEnv :=
  ⟨fun _ contents =>
      if contents = ["t1"] then .rateLimit
      else .ok (contents.map (fun _ => [0])),
    fun _ docs => .ok (docs.map (fun d =>
      decide (d.id ∈ (["a11", "a10", "a9", "a8", "a7", "a1"] : List String))))⟩

def c8envs : Nat → Nat → BatchEnv := fun _ _ => c8env

def c8pool : List EmbeddingConfig := [⟨"e", "d", "v", "k"⟩]

/-- Claim C8 counterexample: against the deterministic services of c8env the
first run leaves chunk 1 pending (its singleton batch exhausts embedding
retries) while a second run re-batches the leftovers, embeds them
successfully and uploads chunk 1 — the end state of two runs differs from
the end state of one run, refuting the unconditional idempotence claim. -/
theorem claim_c8_counterexample :
    UploadToAISearchMainAgent.run
        (UploadToAISearchMainAgent.run c8db c8pool c8envs) c8pool c8envs ≠
      UploadToAISearchMainAgent.run c8db c8pool c8envs := by
  decide

/-- All-success services for the witnesses. -/
def c8okEnv : BatchEnv :=
  ⟨fun _ contents => .ok (contents.map (fun _ => [0])),
    fun _ docs => .ok (docs.map (fun _ => true))⟩

/-- Claim C8 witness: after a fully successful run nothing is pending, and
the second run leaves the state unchanged. -/
theorem claim_c8_witness :
    UploadToAISearchMainAgent.run
        (UploadToAISearchMainAgent.run c8db c8pool (fun _ _ => c8okEnv)) c8pool
        (fun _ _ => c8okEnv) =
      UploadToAISearchMainAgent.run c8db c8pool (fun _ _ => c8okEnv) :=
  (claim_c8 c8db c8pool (fun _ _ => c8okEnv)).2 (by decide)

/-! ## Witnesses -/

/-- One file whose single chunk is uploaded: finalization promotes it. -/
def c1db : DB :=
  ⟨[⟨1, "idx", "f1", "processing"⟩], [⟨1, 1⟩], [⟨1, "a1", "t1", "uploaded", 1⟩]⟩

/-- Claim C1 witness: finalization at a store satisfying the conditions. -/
theorem claim_c1_witness :
    (markFileAsUploaded c1db 1).files = setFirstFileStatus c1db.files 1 "uploaded" :=
  (claim_c1 c1db 1).2.2.1 (by decide)

def c2db : DB := ⟨[], [], []⟩

/-- An embedding service that returns no vectors: a count mismatch. -/
def c2env : BatchEnv := ⟨fun _ _ => .ok [], fun _ _ => .ok []⟩

/-- Claim C2 witness: the one-chunk batch against the zero-vector service. -/
theorem claim_c2_witness :
    (ChunkGroupUploadTask.run c4task c2db c2env).result =
      .error ⟨"Mismatch between number of chunks and embeddings.", none⟩ ∧
    (ChunkGroupUploadTask.run c4task c2db c2env).embedCalls = 1 ∧
    (ChunkGroupUploadTask.run c4task c2db c2env).uploadCalls = 0 ∧
    (ChunkGroupUploadTask.run c4task c2db c2env).db = c2db :=
  claim_c2 c2db c4task c2env 0 [] (by decide)
    (fun i hi => absurd hi (by omega)) rfl (by decide)

/-- Two pending chunks for the marking witnesses. -/
def c3db : DB :=
  ⟨[], [], [⟨1, "a1", "t1", "wait-for-upload", 1⟩,
    ⟨2, "a2", "t2", "wait-for-upload", 1⟩]⟩

/-- Claim C3 witness: a chunk whose result failed keeps its status. -/
theorem claim_c3_witness :
    chunkStatus (markChunksAsUploaded c3db c3db.chunks [true, false]).1 2 =
      chunkStatus c3db 2 :=
  (claim_c3 c3db c3db.chunks [true, false]).2.2.2.2 2 (by decide)

/-- Rate limit on the first two embedding attempts, success on the third. -/
def c5envA : BatchEnv :=
  ⟨fun a _ => if a < 2 then .rateLimit else .ok [[0]], fun _ _ => .ok [true]⟩

/-- Rate limit on the first embedding attempt, then a generic exception. -/
def c5envB : BatchEnv :=
  ⟨fun a _ => if a < 1 then .rateLimit else .exc "boom", fun _ _ => .ok [true]⟩

/-- Claim C5 witness: two rate limits then success give 3 calls with sleeps
10 and 20 and a successful payload; a generic error after one rate limit
propagates at once with exactly 2 calls. -/
theorem claim_c5_witness :
    ((preparePayload c4task c5envA).calls = 3 ∧
      (preparePayload c4task c5envA).waits = [10, 20] ∧
      (preparePayload c4task c5envA).result = .ok (buildPayload c4task [[0]])) ∧
    (preparePayload c4task c5envB).result = .error ⟨"boom", none⟩ ∧
    (preparePayload c4task c5envB).calls = 2 :=
  ⟨(claim_c5 c2db c4task c5envA).2.2.2.1 [[0]] rfl rfl rfl (by decide),
    (claim_c5 c2db c4task c5envB).2.2.1 "boom" 1 (by decide)
      (fun i hi => by interval_cases i; rfl) rfl⟩

/-- One upload exception then success. -/
def c6env : BatchEnv :=
  ⟨fun _ _ => .ok [[0]], fun a _ => if a < 1 then .exc "boom" else .ok [true]⟩

/-- Claim C6 witness: an exception on the first upload attempt is retried
and the second attempt returns the per-document results. -/
theorem claim_c6_witness :
    (uploadDocuments (buildPayload c4task [[0]]) c6env).result = .ok [true] ∧
    (uploadDocuments (buildPayload c4task [[0]]) c6env).calls = 2 :=
  (claim_c6 c2db c4task (buildPayload c4task [[0]]) c6env).2.1
    (fun _ => "boom") 1 [true] (by decide)
    (fun i hi => by interval_cases i; rfl) rfl

/-- Three chunks at batch size 2 with a pool of two credentials. -/
def c7task : FileUploadTask :=
  ⟨"idx", 1, "f1",
    [⟨1, "a1", "t1", "wait-for-upload", 1⟩,
      ⟨2, "a2", "t2", "wait-for-upload", 1⟩,
      ⟨3, "a3", "t3", "wait-for-upload", 1⟩], 2⟩

def c7pool : List EmbeddingConfig :=
  [⟨"A", "d", "v", "k"⟩, ⟨"B", "d", "v", "k"⟩]

/-- Claim C7 witness: the batches of the three-chunk task concatenate back
to the chunk list. -/
theorem claim_c7_witness :
    ((c7task.splitChunks c7pool).map ChunkGroupUploadTask.chunks).flatten =
      c7task.chunks :=
  (claim_c7 c7task c7pool (by decide) (by decide)).2.2.2.1

/-- Claim C9 witness: with every embedding call rate-limited, the
coordinator still returns, with the store unchanged. -/
theorem claim_c9_witness :
    UploadToAISearchMainAgent.run c8db c8pool (fun _ _ => c4env) = c8db :=
  (claim_c9 c8db c8pool (fun _ _ => c4env) (fun _ _ _ _ => rfl)).2

/-- Claim C10 witness: with one result for two chunks, marking equals the
marking of the truncated chunk list. -/
theorem claim_c10_witness :
    markChunksAsUploaded c3db c3db.chunks [true] =
      markChunksAsUploaded c3db (c3db.chunks.take 1) [true] :=
  (claim_c10 c3db c3db.chunks [true] (by decide) (by decide)).1

end AiSearchAsync
